import Mathlib

/-!
Verification of the TM4C123 grblHAL driver (src/drivers/TM4C123/driver.c).

Shallow embedding of the interrupt-driven timing subsystem: step-pulse
generation (immediate and delayed), the ramped and direct spindle PWM
speed control, the software debounce filter for the limit inputs, the
millisecond systick scheduler, probe state handling and the atomic
read-modify-write helpers.  Hardware registers (GPIO ports, the TivaWare
general purpose timers, the SysTick enable bit) are modelled as explicit
state fields; interrupt handlers become state-transition functions.
-/

namespace Driver

/-! ## Constants from driver.c and TivaWare -/

/-- SPINDLE_RAMP_STEP_INCR: timer compare register change per ramp step. -/
def SPINDLE_RAMP_STEP_INCR : Int := 20

/-- SPINDLE_RAMP_STEP_TIME: ramp cadence in ms. -/
def SPINDLE_RAMP_STEP_TIME : Nat := 2

/-- TivaWare TIMER_TIMA_TIMEOUT interrupt status bit. -/
def TIMER_TIMA_TIMEOUT : Nat := 0x00000001

/-- TivaWare TIMER_TIMA_MATCH interrupt status bit. -/
def TIMER_TIMA_MATCH : Nat := 0x00000010

/-- The software debounce window: the debounce timer is loaded with
32000 counts at 1 us per count, i.e. 32 ms. -/
def DEBOUNCE_WINDOW_MS : Nat := 32

/-! ## Settings snapshot (the fields of settings_t that the modelled code reads) -/

structure Settings where
  step_invert : Nat
  dir_invert : Nat
  step_outmode : Nat
  dir_outmode : Nat
  spindle_invert_on : Bool
  spindle_invert_pwm : Bool
  disable_with_zero_speed : Bool
  limits_invert : Nat
  deriving DecidableEq, Repr

/-- The precomputed spindle_pwm_t values used by the speed functions. -/
structure SpindlePWM where
  off_value : Nat
  min_value : Nat
  period : Nat
  always_on : Bool
  deriving DecidableEq, Repr

/-! ## Pulse generator (stepperPulseStart / stepperPulseStartDelayed)

The stepper_t fields the driver reads and writes, and the output-side
state: the step and direction GPIO ports, write counters recording every
GPIOPinWrite to those ports, the next_step_outbits buffer and the pulse
timer enable bit. -/

structure StepperCmd where
  new_block : Bool
  dir_outbits : Nat
  step_outbits : Nat
  deriving DecidableEq, Repr

structure PulseState where
  step_port : Nat
  dir_port : Nat
  stepWrites : Nat
  dirWrites : Nat
  next_step_outbits : Nat
  pulseTimerEnabled : Bool
  deriving DecidableEq, Repr

/-- set_step_outputs: GPIOPinWrite(STEP_PORT, HWSTEP_MASK,
(step_outbits.value ^ settings.steppers.step_invert.mask) << STEP_OUTMODE). -/
def set_step_outputs (st : Settings) (bits : Nat) (s : PulseState) : PulseState :=
  { s with step_port := (bits ^^^ st.step_invert) <<< st.step_outmode,
           stepWrites := s.stepWrites + 1 }

/-- set_dir_outputs: GPIOPinWrite(DIRECTION_PORT, HWDIRECTION_MASK,
(dir_outbits.value ^ settings.dir_invert.mask) << DIRECTION_OUTMODE). -/
def set_dir_outputs (st : Settings) (bits : Nat) (s : PulseState) : PulseState :=
  { s with dir_port := (bits ^^^ st.dir_invert) <<< st.dir_outmode,
           dirWrites := s.dirWrites + 1 }

/-- stepperPulseStart ("normal" version, without SPINDLE_SYNC):
if new_block, clear the flag and apply dir_outbits; if step_outbits
is non-zero, apply them and enable the one-shot pulse timer. -/
def stepperPulseStart (st : Settings) (stp : StepperCmd) (s : PulseState) :
    StepperCmd × PulseState :=
  let p := if stp.new_block then
             ({ stp with new_block := false }, set_dir_outputs st stp.dir_outbits s)
           else (stp, s)
  if p.1.step_outbits ≠ 0 then
    (p.1, { set_step_outputs st p.1.step_outbits p.2 with pulseTimerEnabled := true })
  else p

/-- stepperPulseStartDelayed: as stepperPulseStart, but the step pattern
is stored into next_step_outbits instead of being applied. -/
def stepperPulseStartDelayed (st : Settings) (stp : StepperCmd) (s : PulseState) :
    StepperCmd × PulseState :=
  let p := if stp.new_block then
             ({ stp with new_block := false }, set_dir_outputs st stp.dir_outbits s)
           else (stp, s)
  if p.1.step_outbits ≠ 0 then
    (p.1, { p.2 with next_step_outbits := p.1.step_outbits, pulseTimerEnabled := true })
  else p

/-- stepper_pulse_isr (immediate mode expiry): clear all step outputs. -/
def stepper_pulse_isr (st : Settings) (s : PulseState) : PulseState :=
  set_step_outputs st 0 s

/-- stepper_pulse_isr_delayed: read the interrupt status flags; on a
match event apply the buffered next_step_outbits, otherwise (timeout)
clear the step outputs. -/
def stepper_pulse_isr_delayed (st : Settings) (iflags : Nat) (s : PulseState) : PulseState :=
  set_step_outputs st (if iflags &&& TIMER_TIMA_MATCH ≠ 0 then s.next_step_outbits else 0) s

/-- Process a sequence of stepper commands, one call per command, keeping
only the output-side state (the upstream executor owns the commands). -/
def runSeq (f : StepperCmd → PulseState → StepperCmd × PulseState)
    (cmds : List StepperCmd) (s : PulseState) : PulseState :=
  cmds.foldl (fun s c => (f c s).2) s

lemma stepperPulseStart_dir_port (st : Settings) (stp : StepperCmd) (s : PulseState) :
    (stepperPulseStart st stp s).2.dir_port =
      if stp.new_block then (set_dir_outputs st stp.dir_outbits s).dir_port
      else s.dir_port := by
  simp only [stepperPulseStart]
  by_cases h : stp.new_block <;> simp [h, set_step_outputs, set_dir_outputs] <;>
    split <;> simp [set_step_outputs, set_dir_outputs]

lemma stepperPulseStart_dirWrites (st : Settings) (stp : StepperCmd) (s : PulseState) :
    (stepperPulseStart st stp s).2.dirWrites =
      if stp.new_block then s.dirWrites + 1 else s.dirWrites := by
  simp only [stepperPulseStart]
  by_cases h : stp.new_block <;> simp [h, set_step_outputs, set_dir_outputs] <;>
    split <;> simp [set_step_outputs, set_dir_outputs]

lemma stepperPulseStartDelayed_dir_port (st : Settings) (stp : StepperCmd) (s : PulseState) :
    (stepperPulseStartDelayed st stp s).2.dir_port =
      if stp.new_block then (set_dir_outputs st stp.dir_outbits s).dir_port
      else s.dir_port := by
  simp only [stepperPulseStartDelayed]
  by_cases h : stp.new_block <;> simp [h, set_dir_outputs] <;>
    split <;> simp [set_dir_outputs]

lemma stepperPulseStartDelayed_dirWrites (st : Settings) (stp : StepperCmd) (s : PulseState) :
    (stepperPulseStartDelayed st stp s).2.dirWrites =
      if stp.new_block then s.dirWrites + 1 else s.dirWrites := by
  simp only [stepperPulseStartDelayed]
  by_cases h : stp.new_block <;> simp [h, set_dir_outputs] <;>
    split <;> simp [set_dir_outputs]

lemma stepperPulseStart_new_block (st : Settings) (stp : StepperCmd) (s : PulseState) :
    (stepperPulseStart st stp s).1.new_block = false := by
  simp only [stepperPulseStart]
  by_cases h : stp.new_block <;> simp [h] <;> split <;> simp [h]

lemma stepperPulseStartDelayed_new_block (st : Settings) (stp : StepperCmd) (s : PulseState) :
    (stepperPulseStartDelayed st stp s).1.new_block = false := by
  simp only [stepperPulseStartDelayed]
  by_cases h : stp.new_block <;> simp [h] <;> split <;> simp [h]

lemma runSeq_dir_invariant (st : Settings)
    (f : StepperCmd → PulseState → StepperCmd × PulseState)
    (hf : ∀ c s, c.new_block = false →
      (f c s).2.dir_port = s.dir_port ∧ (f c s).2.dirWrites = s.dirWrites)
    (cmds : List StepperCmd) (hc : ∀ c ∈ cmds, c.new_block = false) (s : PulseState) :
    (runSeq f cmds s).dir_port = s.dir_port ∧ (runSeq f cmds s).dirWrites = s.dirWrites := by
  induction cmds generalizing s with
  | nil => simp [runSeq]
  | cons c cs ih =>
      have hcc : c.new_block = false := hc c (by simp)
      have h1 := hf c s hcc
      have h2 := ih (fun d hd => hc d (by simp [hd])) (f c s).2
      simp only [runSeq, List.foldl_cons] at h2 ⊢
      exact ⟨h2.1.trans h1.1, h2.2.trans h1.2⟩

/-- Claim C1: for every stepper command processed by stepperPulseStart or
stepperPulseStartDelayed, the direction outputs are written (via
set_dir_outputs with the command's dir_outbits) if and only if the
command's new_block flag is true; a sequence of commands with new_block
false never alters the direction outputs; and processing a new_block
command clears the flag, so it is consumed exactly once. -/
theorem stepper_dir_iff_new_block (st : Settings) (stp : StepperCmd) (s : PulseState) :
    ((stepperPulseStart st stp s).2.dirWrites =
        if stp.new_block then s.dirWrites + 1 else s.dirWrites) ∧
    ((stepperPulseStart st stp s).2.dir_port =
        if stp.new_block then (set_dir_outputs st stp.dir_outbits s).dir_port
        else s.dir_port) ∧
    (stepperPulseStart st stp s).1.new_block = false ∧
    ((stepperPulseStartDelayed st stp s).2.dirWrites =
        if stp.new_block then s.dirWrites + 1 else s.dirWrites) ∧
    ((stepperPulseStartDelayed st stp s).2.dir_port =
        if stp.new_block then (set_dir_outputs st stp.dir_outbits s).dir_port
        else s.dir_port) ∧
    (stepperPulseStartDelayed st stp s).1.new_block = false ∧
    (∀ cmds : List StepperCmd, (∀ c ∈ cmds, c.new_block = false) →
      (runSeq (stepperPulseStart st) cmds s).dir_port = s.dir_port ∧
      (runSeq (stepperPulseStart st) cmds s).dirWrites = s.dirWrites ∧
      (runSeq (stepperPulseStartDelayed st) cmds s).dir_port = s.dir_port ∧
      (runSeq (stepperPulseStartDelayed st) cmds s).dirWrites = s.dirWrites) := by
  refine ⟨stepperPulseStart_dirWrites st stp s, stepperPulseStart_dir_port st stp s,
    stepperPulseStart_new_block st stp s,
    stepperPulseStartDelayed_dirWrites st stp s, stepperPulseStartDelayed_dir_port st stp s,
    stepperPulseStartDelayed_new_block st stp s, ?_⟩
  intro cmds hc
  have h1 := runSeq_dir_invariant st (stepperPulseStart st)
    (fun c s hcb => by
      constructor
      · rw [stepperPulseStart_dir_port]; simp [hcb]
      · rw [stepperPulseStart_dirWrites]; simp [hcb]) cmds hc s
  have h2 := runSeq_dir_invariant st (stepperPulseStartDelayed st)
    (fun c s hcb => by
      constructor
      · rw [stepperPulseStartDelayed_dir_port]; simp [hcb]
      · rw [stepperPulseStartDelayed_dirWrites]; simp [hcb]) cmds hc s
  exact ⟨h1.1, h1.2, h2.1, h2.2⟩

/-- Witness for C1: concrete commands and a two-command all-old-block
sequence. -/
theorem stepper_dir_iff_new_block_witness :
    (∀ c ∈ [StepperCmd.mk false 1 2, StepperCmd.mk false 3 4], c.new_block = false) ∧
    (runSeq (stepperPulseStart (Settings.mk 0 0 0 0 false false false 0))
        [StepperCmd.mk false 1 2, StepperCmd.mk false 3 4]
        (PulseState.mk 0 0 0 0 0 false)).dir_port =
      (PulseState.mk 0 0 0 0 0 false).dir_port := by
  constructor
  · decide
  · exact ((stepper_dir_iff_new_block (Settings.mk 0 0 0 0 false false false 0)
      (StepperCmd.mk true 0 0) (PulseState.mk 0 0 0 0 0 false)).2.2.2.2.2.2
      [StepperCmd.mk false 1 2, StepperCmd.mk false 3 4] (by decide)).1

/-- Claim C4: in delayed-pulse mode, stepperPulseStartDelayed buffers the
step pattern into next_step_outbits instead of applying it to the step
outputs, and stepper_pulse_isr_delayed reads the interrupt status flags
at entry: on a match event it applies the buffered pattern, on a timeout
event it clears all step outputs to zero. -/
theorem delayed_pulse_buffer_and_isr (st : Settings) (stp : StepperCmd)
    (s : PulseState) (iflags : Nat) :
    ((stepperPulseStartDelayed st stp s).2.step_port = s.step_port ∧
     (stepperPulseStartDelayed st stp s).2.stepWrites = s.stepWrites) ∧
    (stp.step_outbits ≠ 0 →
      (stepperPulseStartDelayed st stp s).2.next_step_outbits = stp.step_outbits ∧
      (stepperPulseStartDelayed st stp s).2.pulseTimerEnabled = true) ∧
    (iflags &&& TIMER_TIMA_MATCH ≠ 0 →
      stepper_pulse_isr_delayed st iflags s = set_step_outputs st s.next_step_outbits s) ∧
    (iflags &&& TIMER_TIMA_MATCH = 0 →
      stepper_pulse_isr_delayed st iflags s = set_step_outputs st 0 s) := by
  refine ⟨?_, ?_, ?_, ?_⟩
  · simp only [stepperPulseStartDelayed]
    by_cases h : stp.new_block <;> simp [h, set_dir_outputs] <;>
      split <;> simp [set_dir_outputs]
  · intro hz
    simp only [stepperPulseStartDelayed]
    by_cases h : stp.new_block <;> simp [h, hz, set_dir_outputs]
  · intro hm; simp [stepper_pulse_isr_delayed, hm]
  · intro hm; simp [stepper_pulse_isr_delayed, hm]

/-- Witness for C4: a non-empty step pattern, a match event and a timeout
event at concrete inputs. -/
theorem delayed_pulse_buffer_and_isr_witness :
    ((StepperCmd.mk false 0 5 : StepperCmd).step_outbits ≠ 0 ∧
      (stepperPulseStartDelayed (Settings.mk 0 0 0 0 false false false 0)
        (StepperCmd.mk false 0 5) (PulseState.mk 0 0 0 0 0 false)).2.next_step_outbits = 5) ∧
    (TIMER_TIMA_MATCH &&& TIMER_TIMA_MATCH ≠ 0 ∧
      stepper_pulse_isr_delayed (Settings.mk 0 0 0 0 false false false 0) TIMER_TIMA_MATCH
          (PulseState.mk 0 0 0 0 7 false) =
        set_step_outputs (Settings.mk 0 0 0 0 false false false 0) 7
          (PulseState.mk 0 0 0 0 7 false)) ∧
    (TIMER_TIMA_TIMEOUT &&& TIMER_TIMA_MATCH = 0 ∧
      stepper_pulse_isr_delayed (Settings.mk 0 0 0 0 false false false 0) TIMER_TIMA_TIMEOUT
          (PulseState.mk 0 0 0 0 7 false) =
        set_step_outputs (Settings.mk 0 0 0 0 false false false 0) 0
          (PulseState.mk 0 0 0 0 7 false)) := by
  refine ⟨⟨by decide, ?_⟩, ⟨by decide, ?_⟩, ⟨by decide, ?_⟩⟩
  · exact ((delayed_pulse_buffer_and_isr (Settings.mk 0 0 0 0 false false false 0)
      (StepperCmd.mk false 0 5) (PulseState.mk 0 0 0 0 0 false) 0).2.1 (by decide)).1
  · exact (delayed_pulse_buffer_and_isr (Settings.mk 0 0 0 0 false false false 0)
      (StepperCmd.mk false 0 5) (PulseState.mk 0 0 0 0 7 false) TIMER_TIMA_MATCH).2.2.1
      (by decide)
  · exact (delayed_pulse_buffer_and_isr (Settings.mk 0 0 0 0 false false false 0)
      (StepperCmd.mk false 0 5) (PulseState.mk 0 0 0 0 7 false) TIMER_TIMA_TIMEOUT).2.2.2
      (by decide)

/-- Claim C5: for a stepper command whose step_outbits is zero, both
start_pulse variants arm no pulse timer and leave the step outputs and
the buffered next_step_outbits unchanged; the only effect is the
direction update when new_block is true (and there is no error path). -/
theorem empty_step_bits_noop (st : Settings) (stp : StepperCmd) (s : PulseState)
    (h : stp.step_outbits = 0) :
    (stepperPulseStart st stp s).2 =
      (if stp.new_block then set_dir_outputs st stp.dir_outbits s else s) ∧
    (stepperPulseStartDelayed st stp s).2 =
      (if stp.new_block then set_dir_outputs st stp.dir_outbits s else s) ∧
    (stepperPulseStart st stp s).2.pulseTimerEnabled = s.pulseTimerEnabled ∧
    (stepperPulseStart st stp s).2.step_port = s.step_port ∧
    (stepperPulseStart st stp s).2.stepWrites = s.stepWrites ∧
    (stepperPulseStart st stp s).2.next_step_outbits = s.next_step_outbits ∧
    (stepperPulseStartDelayed st stp s).2.pulseTimerEnabled = s.pulseTimerEnabled ∧
    (stepperPulseStartDelayed st stp s).2.step_port = s.step_port ∧
    (stepperPulseStartDelayed st stp s).2.stepWrites = s.stepWrites ∧
    (stepperPulseStartDelayed st stp s).2.next_step_outbits = s.next_step_outbits := by
  have h1 : (stepperPulseStart st stp s).2 =
      (if stp.new_block then set_dir_outputs st stp.dir_outbits s else s) := by
    simp only [stepperPulseStart]
    by_cases hb : stp.new_block <;> simp [hb, h]
  have h2 : (stepperPulseStartDelayed st stp s).2 =
      (if stp.new_block then set_dir_outputs st stp.dir_outbits s else s) := by
    simp only [stepperPulseStartDelayed]
    by_cases hb : stp.new_block <;> simp [hb, h]
  refine ⟨h1, h2, ?_, ?_, ?_, ?_, ?_, ?_, ?_, ?_⟩ <;> first
    | (rw [h1]; by_cases hb : stp.new_block <;> simp [hb, set_dir_outputs])
    | (rw [h2]; by_cases hb : stp.new_block <;> simp [hb, set_dir_outputs])

/-- Witness for C5: a concrete empty-step command with new_block set. -/
theorem empty_step_bits_noop_witness :
    (StepperCmd.mk true 3 0 : StepperCmd).step_outbits = 0 ∧
    (stepperPulseStart (Settings.mk 0 0 0 0 false false false 0)
        (StepperCmd.mk true 3 0) (PulseState.mk 0 0 0 0 0 false)).2 =
      set_dir_outputs (Settings.mk 0 0 0 0 false false false 0) 3
        (PulseState.mk 0 0 0 0 0 false) := by
  refine ⟨by decide, ?_⟩
  have h := (empty_step_bits_noop (Settings.mk 0 0 0 0 false false false 0)
    (StepperCmd.mk true 3 0) (PulseState.mk 0 0 0 0 0 false) (by decide)).1
  simpa using h

/-! ## Spindle PWM control and the systick scheduler

State shared by spindle_set_speed (both the PWM_RAMPED and the plain
variant), driver_delay_ms and systick_isr.  The spindle PWM timer
registers are modelled as integers; callbacks are modelled as opaque
identifiers, invoking one appends its identifier to the fired log. -/

structure PwmTimer where
  prescale : Int
  prescaleMatch : Int
  load : Int
  matchReg : Int
  controlLevel : Bool
  enabled : Bool
  deriving DecidableEq, Repr

structure SysState where
  pwmEnabled : Bool
  spindle_enable_port : Nat
  pwmTimer : PwmTimer
  sysTickEnabled : Bool
  pwm_current : Int
  pwm_target : Int
  pwm_step : Int
  ms_cfg : Nat
  ramp_delay_ms : Nat
  delay_ms : Nat
  delay_callback : Option Nat
  fired : List Nat
  deriving DecidableEq, Repr

/-- spindle_off: write the spindle enable pin to its inactive level. -/
def spindle_off (st : Settings) (s : SysState) : SysState :=
  { s with spindle_enable_port := if st.spindle_invert_on then 1 else 0 }

/-- spindle_on: write the spindle enable pin to its active level. -/
def spindle_on (st : Settings) (s : SysState) : SysState :=
  { s with spindle_enable_port := if st.spindle_invert_on then 0 else 1 }

/-- spindle_set_speed, PWM_RAMPED variant: off_value starts a downward
ramp toward 0; otherwise the output is enabled (seeding pwm_current at
min_value on an off-to-on transition) and a ramp toward pwm_value is
started with step sign chosen by comparing target and current. -/
def spindle_set_speed_r (st : Settings) (cfg : SpindlePWM) (pwm_value : Nat)
    (s : SysState) : SysState :=
  if pwm_value = cfg.off_value then
    { s with pwm_target := 0, pwm_step := -SPINDLE_RAMP_STEP_INCR,
             ramp_delay_ms := 0, ms_cfg := SPINDLE_RAMP_STEP_TIME,
             sysTickEnabled := true }
  else
    let s1 :=
      if !s.pwmEnabled then
        { spindle_on st s with
            pwmEnabled := true,
            pwm_current := (cfg.min_value : Int),
            ramp_delay_ms := 0,
            pwmTimer := { s.pwmTimer with
              matchReg := (cfg.period : Int) - (cfg.min_value : Int) + 15,
              load := (cfg.period : Int),
              enabled := true } }
      else s
    { s1 with
        pwm_target := (pwm_value : Int),
        pwm_step := if (pwm_value : Int) < s1.pwm_current then -SPINDLE_RAMP_STEP_INCR
                    else SPINDLE_RAMP_STEP_INCR,
        ms_cfg := SPINDLE_RAMP_STEP_TIME,
        pwmTimer := { s1.pwmTimer with controlLevel := false },
        sysTickEnabled := true }

/-- spindle_set_speed, plain (non-ramped) variant: off_value disables
output (honoring always_on by loading the off duty instead), any other
value is applied synchronously, enabling the output if it was off. -/
def spindle_set_speed_nr (st : Settings) (cfg : SpindlePWM) (pwm_value : Nat)
    (s : SysState) : SysState :=
  if pwm_value = cfg.off_value then
    let s1 := { s with pwmEnabled := false }
    let s2 := if st.disable_with_zero_speed then spindle_off st s1 else s1
    if cfg.always_on then
      { s2 with pwmTimer := { s2.pwmTimer with
          prescaleMatch := ((cfg.off_value >>> 16 : Nat) : Int),
          matchReg := ((cfg.off_value &&& 0xFFFF : Nat) : Int),
          controlLevel := !st.spindle_invert_pwm,
          enabled := true } }
    else
      let pwm := cfg.period + 20000
      let s3 := { s2 with pwmTimer := { s2.pwmTimer with
          prescale := ((pwm >>> 16 : Nat) : Int),
          load := ((pwm &&& 0xFFFF : Nat) : Int) } }
      let s4 := if !s3.pwmEnabled then
          { s3 with pwmTimer := { s3.pwmTimer with enabled := true } }
        else s3
      { s4 with pwmTimer := { s4.pwmTimer with
          controlLevel := !st.spindle_invert_pwm, enabled := false } }
  else
    let s1 := { s with pwmTimer := { s.pwmTimer with
        prescaleMatch := ((pwm_value >>> 16 : Nat) : Int),
        matchReg := ((pwm_value &&& 0xFFFF : Nat) : Int) } }
    if !s1.pwmEnabled then
      { spindle_on st s1 with
          pwmEnabled := true,
          pwmTimer := { s1.pwmTimer with
            prescale := ((cfg.period >>> 16 : Nat) : Int),
            load := ((cfg.period &&& 0xFFFF : Nat) : Int),
            controlLevel := !st.spindle_invert_pwm,
            enabled := true } }
    else s1

/-- One ramp step: the body of systick_isr executed when the ramp
cadence counter reaches ms_cfg (pwm_ramp.delay.ms is reset, pwm_current
moves by pwm_step, is clamped at pwm_target, the new duty is applied,
the output is shut down on reaching zero while decreasing, and the ramp
halts once current equals target). -/
def rampTick (st : Settings) (cfg : SpindlePWM) (s : SysState) : SysState :=
  let s1 : SysState := { s with ramp_delay_ms := 0, pwm_current := s.pwm_current + s.pwm_step }
  let s2 : SysState :=
    if s1.pwm_step < 0 then
      let s1a := if s1.pwm_current < s1.pwm_target then
          { s1 with pwm_current := s1.pwm_target } else s1
      if s1a.pwm_current = 0 then
        let s1b := if st.disable_with_zero_speed then spindle_off st s1a else s1a
        let s1c := { s1b with pwmTimer := { s1b.pwmTimer with
            load := ((cfg.period + 20000 : Nat) : Int), enabled := false } }
        let s1d := if s1c.pwmEnabled then
            { s1c with pwmTimer := { s1c.pwmTimer with controlLevel := true } }
          else s1c
        { s1d with pwmEnabled := false }
      else
        { s1a with pwmTimer := { s1a.pwmTimer with
            matchReg := (cfg.period : Int) - s1a.pwm_current } }
    else
      let s1a := if s1.pwm_target < s1.pwm_current then
          { s1 with pwm_current := s1.pwm_target } else s1
      { s1a with pwmTimer := { s1a.pwmTimer with
          matchReg := (cfg.period : Int) - s1a.pwm_current } }
  if s2.pwm_current = s2.pwm_target then { s2 with ms_cfg := 0 } else s2

/-- The ramp section of systick_isr: while ms_cfg is non-zero the
cadence counter pwm_ramp.delay.ms is incremented, and when it reaches
ms_cfg a ramp step executes. -/
def systick_ramp (st : Settings) (cfg : SpindlePWM) (s : SysState) : SysState :=
  if s.ms_cfg ≠ 0 then
    if s.ramp_delay_ms + 1 = s.ms_cfg then rampTick st cfg s
    else { s with ramp_delay_ms := s.ramp_delay_ms + 1 }
  else s

/-- The delay section of systick_isr: if delay.ms is non-zero it is
decremented, and on reaching zero a stored callback is invoked once and
cleared. -/
def systick_delay (s : SysState) : SysState :=
  if s.delay_ms ≠ 0 then
    let s1 := { s with delay_ms := s.delay_ms - 1 }
    if s1.delay_ms = 0 then
      match s1.delay_callback with
      | some c => { s1 with fired := s1.fired ++ [c], delay_callback := none }
      | none => s1
    else s1
  else s

/-- The tail of systick_isr: when both the delay countdown and the ramp
cadence are inactive the systick timer disables itself. -/
def systick_tail (s : SysState) : SysState :=
  if s.delay_ms = 0 ∧ s.ms_cfg = 0 then { s with sysTickEnabled := false } else s

/-- systick_isr (PWM_RAMPED variant): ramp handling, then the delay
countdown, then the self-disable check. -/
def systick_isr (st : Settings) (cfg : SpindlePWM) (s : SysState) : SysState :=
  systick_tail (systick_delay (systick_ramp st cfg s))

/-- driver_delay_ms: a pending callback is invoked at entry; with ms
non-zero the countdown is armed and the call either busy-waits (null
callback, the returned flag is true) or stores the callback and returns
immediately; with ms zero any running countdown is cancelled and the
callback, if any, runs at once. -/
def driver_delay_ms (ms : Nat) (cb : Option Nat) (s : SysState) : SysState × Bool :=
  let s0 := match s.delay_callback with
            | some c => { s with fired := s.fired ++ [c] }
            | none => s
  if ms ≠ 0 then
    ({ s0 with delay_ms := ms, sysTickEnabled := true, delay_callback := cb }, cb.isNone)
  else
    let s1 := if s0.delay_ms ≠ 0 then { s0 with delay_callback := none, delay_ms := 1 }
              else s0
    match cb with
    | some c => ({ s1 with fired := s1.fired ++ [c] }, false)
    | none => (s1, false)

/-! Concrete instances used by witnesses. -/

def cSettings : Settings := Settings.mk 0 0 0 0 false false false 0

def cPWM : SpindlePWM := SpindlePWM.mk 0 100 1000 false

def cTimer : PwmTimer := PwmTimer.mk 0 0 0 0 false false

def cSys : SysState := SysState.mk false 0 cTimer false 0 0 0 0 0 0 none []

/-- Claim C7: invoking spindle_set_speed(off_value) twice in a row is
idempotent in both the ramped and the direct PWM variant: the driver
state after the second call equals the state after the first call. -/
theorem set_speed_off_idempotent (st : Settings) (cfg : SpindlePWM) (s : SysState) :
    spindle_set_speed_r st cfg cfg.off_value (spindle_set_speed_r st cfg cfg.off_value s) =
      spindle_set_speed_r st cfg cfg.off_value s ∧
    spindle_set_speed_nr st cfg cfg.off_value (spindle_set_speed_nr st cfg cfg.off_value s) =
      spindle_set_speed_nr st cfg cfg.off_value s := by
  constructor
  · cases s
    simp [spindle_set_speed_r]
  · cases s
    simp only [spindle_set_speed_nr, spindle_off, if_pos rfl]
    split_ifs <;> simp_all

/-- The self-disable check preserves the countdown fields. -/
lemma systick_tail_fields (s : SysState) :
    (systick_tail s).delay_ms = s.delay_ms ∧ (systick_tail s).ms_cfg = s.ms_cfg := by
  simp only [systick_tail]
  split_ifs <;> simp

/-- Claim C9: after every execution of the systick handler, if both the
delay countdown and the ramp cadence are inactive the scheduler has
disabled itself; and it is re-enabled by a new delay or ramp request. -/
theorem systick_self_disable (st : Settings) (cfg : SpindlePWM) (s : SysState) :
    ((systick_isr st cfg s).delay_ms = 0 → (systick_isr st cfg s).ms_cfg = 0 →
      (systick_isr st cfg s).sysTickEnabled = false) ∧
    (∀ (ms : Nat) (cb : Option Nat) (s2 : SysState), ms ≠ 0 →
      (driver_delay_ms ms cb s2).1.sysTickEnabled = true) ∧
    (∀ v : Nat, (spindle_set_speed_r st cfg v s).sysTickEnabled = true) := by
  refine ⟨?_, ?_, ?_⟩
  · intro h1 h2
    simp only [systick_isr] at h1 h2 ⊢
    rw [(systick_tail_fields _).1] at h1
    rw [(systick_tail_fields _).2] at h2
    simp [systick_tail, h1, h2]
  · intro ms cb s2 hms
    cases hc : s2.delay_callback <;> simp [driver_delay_ms, hms, hc]
  · intro v
    by_cases hv : v = cfg.off_value <;> simp [spindle_set_speed_r, hv] <;>
      split_ifs <;> simp

/-- Witness for C9: the idle state ticks once and self-disables. -/
theorem systick_self_disable_witness :
    (systick_isr cSettings cPWM cSys).delay_ms = 0 ∧
    (systick_isr cSettings cPWM cSys).ms_cfg = 0 ∧
    (systick_isr cSettings cPWM cSys).sysTickEnabled = false ∧
    (3 : Nat) ≠ 0 ∧ (driver_delay_ms 3 none cSys).1.sysTickEnabled = true := by
  refine ⟨by decide, by decide, ?_, by decide, ?_⟩
  · exact (systick_self_disable cSettings cPWM cSys).1 (by decide) (by decide)
  · exact (systick_self_disable cSettings cPWM cSys).2.1 3 none cSys (by decide)

/-! ## Ramp convergence (C2) -/

/-- Iterated ramp steps: the trajectory of the ramp, one entry per ramp
tick (a ramp tick is the systick invocation on which the cadence counter
reaches ms_cfg and rampTick runs). -/
def rampIter (st : Settings) (cfg : SpindlePWM) (n : Nat) (s : SysState) : SysState :=
  (rampTick st cfg)^[n] s

lemma rampIter_zero (st : Settings) (cfg : SpindlePWM) (s : SysState) :
    rampIter st cfg 0 s = s := rfl

lemma rampIter_succ (st : Settings) (cfg : SpindlePWM) (s : SysState) (n : Nat) :
    rampIter st cfg (n + 1) s = rampTick st cfg (rampIter st cfg n s) := by
  simp [rampIter, Function.iterate_succ_apply']

-- Scalar characterization of one ramp step: target and step are
-- preserved, current moves by step and is clamped at target, and the
-- ramp halts exactly when current lands on target.
set_option maxHeartbeats 1600000 in
lemma rampTick_scalar (st : Settings) (cfg : SpindlePWM) (s : SysState) :
    (rampTick st cfg s).pwm_target = s.pwm_target ∧
    (rampTick st cfg s).pwm_step = s.pwm_step ∧
    (rampTick st cfg s).pwm_current =
      (if s.pwm_step < 0 then max (s.pwm_current + s.pwm_step) s.pwm_target
       else min (s.pwm_current + s.pwm_step) s.pwm_target) ∧
    (rampTick st cfg s).ms_cfg =
      (if (rampTick st cfg s).pwm_current = s.pwm_target then 0 else s.ms_cfg) := by
  cases s
  simp only [rampTick, spindle_off]
  split_ifs <;> simp_all <;> omega

lemma rampIter_target (st : Settings) (cfg : SpindlePWM) (s : SysState) (n : Nat) :
    (rampIter st cfg n s).pwm_target = s.pwm_target := by
  induction n with
  | zero => rfl
  | succ n ih =>
      rw [rampIter_succ, (rampTick_scalar st cfg _).1, ih]

lemma rampIter_step (st : Settings) (cfg : SpindlePWM) (s : SysState) (n : Nat) :
    (rampIter st cfg n s).pwm_step = s.pwm_step := by
  induction n with
  | zero => rfl
  | succ n ih =>
      rw [rampIter_succ, (rampTick_scalar st cfg _).2.1, ih]

lemma rampIter_current_up (st : Settings) (cfg : SpindlePWM) (s : SysState)
    (h : s.pwm_step = SPINDLE_RAMP_STEP_INCR)
    (hle : s.pwm_current ≤ s.pwm_target) (n : Nat) :
    (rampIter st cfg n s).pwm_current = min (s.pwm_current + 20 * n) s.pwm_target := by
  induction n with
  | zero =>
      rw [rampIter_zero]
      omega
  | succ n ih =>
      rw [rampIter_succ]
      have h1 := (rampTick_scalar st cfg (rampIter st cfg n s)).2.2.1
      rw [rampIter_step st cfg s n, h, rampIter_target st cfg s n, ih] at h1
      rw [h1]
      norm_num [SPINDLE_RAMP_STEP_INCR]
      push_cast
      omega

lemma rampIter_current_down (st : Settings) (cfg : SpindlePWM) (s : SysState)
    (h : s.pwm_step = -SPINDLE_RAMP_STEP_INCR)
    (hge : s.pwm_target ≤ s.pwm_current) (n : Nat) :
    (rampIter st cfg n s).pwm_current = max (s.pwm_current - 20 * n) s.pwm_target := by
  induction n with
  | zero =>
      rw [rampIter_zero]
      omega
  | succ n ih =>
      rw [rampIter_succ]
      have h1 := (rampTick_scalar st cfg (rampIter st cfg n s)).2.2.1
      rw [rampIter_step st cfg s n, h, rampIter_target st cfg s n, ih] at h1
      rw [h1]
      norm_num [SPINDLE_RAMP_STEP_INCR]
      push_cast
      omega

lemma rampIter_ms_cfg_succ (st : Settings) (cfg : SpindlePWM) (s : SysState) (n : Nat) :
    (rampIter st cfg (n + 1) s).ms_cfg =
      (if (rampIter st cfg (n + 1) s).pwm_current = s.pwm_target then 0
       else (rampIter st cfg n s).ms_cfg) := by
  rw [rampIter_succ]
  have h1 := (rampTick_scalar st cfg (rampIter st cfg n s)).2.2.2
  rw [rampIter_target st cfg s n] at h1
  rw [h1]

/-- Claim C2, amended: for a ramp started at pwm_current = c0 toward
pwm_target = t with c0 ≠ t and the step sign chosen as
spindle_set_speed does, the systick-driven ramp reaches t in exactly
ceil(|t - c0| / 20) ramp ticks, the ramp is still armed at every
earlier tick, pwm_current never passes beyond the interval between c0
and t, and on the final tick the ramp halts (ms_cfg becomes 0).  The
unamended claim fails when c0 = t: see the counterexample. -/
theorem ramp_convergence (st : Settings) (cfg : SpindlePWM) (s : SysState)
    (c0 t : Int) (hc : s.pwm_current = c0) (ht : s.pwm_target = t) (hne : c0 ≠ t)
    (hstep : s.pwm_step =
      if t < c0 then -SPINDLE_RAMP_STEP_INCR else SPINDLE_RAMP_STEP_INCR)
    (hcfg : s.ms_cfg = SPINDLE_RAMP_STEP_TIME) :
    (rampIter st cfg (((t - c0).natAbs + 19) / 20) s).pwm_current = t ∧
    (∀ k < ((t - c0).natAbs + 19) / 20, (rampIter st cfg k s).pwm_current ≠ t) ∧
    (∀ k < ((t - c0).natAbs + 19) / 20,
      (rampIter st cfg k s).ms_cfg = SPINDLE_RAMP_STEP_TIME) ∧
    (rampIter st cfg (((t - c0).natAbs + 19) / 20) s).ms_cfg = 0 ∧
    (∀ k, min c0 t ≤ (rampIter st cfg k s).pwm_current ∧
          (rampIter st cfg k s).pwm_current ≤ max c0 t) := by
  have hq20 := Nat.div_add_mod ((t - c0).natAbs + 19) 20
  have hr : ((t - c0).natAbs + 19) % 20 < 20 := Nat.mod_lt _ (by norm_num)
  rcases hne.lt_or_lt with h | h
  · -- increasing ramp: c0 < t
    rw [if_neg (not_lt.mpr h.le)] at hstep
    have hle : s.pwm_current ≤ s.pwm_target := by rw [hc, ht]; exact h.le
    have hd : (((t - c0).natAbs : Int)) = t - c0 := Int.natAbs_of_nonneg (by omega)
    have hFk : ∀ k : Nat, (rampIter st cfg k s).pwm_current = min (c0 + 20 * k) t := by
      intro k
      rw [rampIter_current_up st cfg s hstep hle k, hc, ht]
    have hNe : ∀ k < ((t - c0).natAbs + 19) / 20,
        (rampIter st cfg k s).pwm_current ≠ t := by
      intro k hk
      rw [hFk k]
      omega
    have hHit : (rampIter st cfg (((t - c0).natAbs + 19) / 20) s).pwm_current = t := by
      rw [hFk]
      omega
    have hMs : ∀ k < ((t - c0).natAbs + 19) / 20,
        (rampIter st cfg k s).ms_cfg = SPINDLE_RAMP_STEP_TIME := by
      intro k
      induction k with
      | zero => intro _; rw [rampIter_zero]; exact hcfg
      | succ n ih =>
          intro hk
          rw [rampIter_ms_cfg_succ, ht, if_neg (hNe (n + 1) hk)]
          exact ih (by omega)
    refine ⟨hHit, hNe, hMs, ?_, ?_⟩
    · obtain ⟨q, hq⟩ : ∃ q, ((t - c0).natAbs + 19) / 20 = q + 1 :=
        ⟨((t - c0).natAbs + 19) / 20 - 1, by omega⟩
      rw [hq] at hHit ⊢
      rw [rampIter_ms_cfg_succ, ht, if_pos hHit]
    · intro k
      rw [hFk k]
      constructor <;> omega
  · -- decreasing ramp: t < c0
    rw [if_pos h] at hstep
    have hge : s.pwm_target ≤ s.pwm_current := by rw [hc, ht]; exact h.le
    have hd : (((t - c0).natAbs : Int)) = c0 - t := by omega
    have hFk : ∀ k : Nat, (rampIter st cfg k s).pwm_current = max (c0 - 20 * k) t := by
      intro k
      rw [rampIter_current_down st cfg s hstep hge k, hc, ht]
    have hNe : ∀ k < ((t - c0).natAbs + 19) / 20,
        (rampIter st cfg k s).pwm_current ≠ t := by
      intro k hk
      rw [hFk k]
      omega
    have hHit : (rampIter st cfg (((t - c0).natAbs + 19) / 20) s).pwm_current = t := by
      rw [hFk]
      omega
    have hMs : ∀ k < ((t - c0).natAbs + 19) / 20,
        (rampIter st cfg k s).ms_cfg = SPINDLE_RAMP_STEP_TIME := by
      intro k
      induction k with
      | zero => intro _; rw [rampIter_zero]; exact hcfg
      | succ n ih =>
          intro hk
          rw [rampIter_ms_cfg_succ, ht, if_neg (hNe (n + 1) hk)]
          exact ih (by omega)
    refine ⟨hHit, hNe, hMs, ?_, ?_⟩
    · obtain ⟨q, hq⟩ : ∃ q, ((t - c0).natAbs + 19) / 20 = q + 1 :=
        ⟨((t - c0).natAbs + 19) / 20 - 1, by omega⟩
      rw [hq] at hHit ⊢
      rw [rampIter_ms_cfg_succ, ht, if_pos hHit]
    · intro k
      rw [hFk k]
      constructor <;> omega

/-- Counterexample to C2 as stated: issuing set_speed(off_value) while
pwm_current is already 0 starts a ramp with c0 = t = 0, for which the
claimed tick count is ceil(0 / 20) = 0, yet after 0 ramp ticks the ramp
has not halted (ms_cfg = 2, not 0); the code spends one extra tick
clamping back onto the target before halting. -/
theorem ramp_convergence_counterexample :
    (spindle_set_speed_r cSettings cPWM cPWM.off_value cSys).pwm_current = 0 ∧
    (spindle_set_speed_r cSettings cPWM cPWM.off_value cSys).pwm_target = 0 ∧
    (((0 : Int) - 0).natAbs + 19) / 20 = 0 ∧
    (rampIter cSettings cPWM ((((0 : Int) - 0).natAbs + 19) / 20)
        (spindle_set_speed_r cSettings cPWM cPWM.off_value cSys)).ms_cfg ≠ 0 ∧
    (rampIter cSettings cPWM 1
        (spindle_set_speed_r cSettings cPWM cPWM.off_value cSys)).ms_cfg = 0 ∧
    (rampIter cSettings cPWM 1
        (spindle_set_speed_r cSettings cPWM cPWM.off_value cSys)).pwm_current = 0 := by
  decide

/-- Witness for C2: the spec scenario, ramp from 0 to 1000 with step 20
takes exactly 50 ticks. -/
theorem ramp_convergence_witness :
    ((((1000 : Int) - 0).natAbs + 19) / 20 = 50 ∧
      (SysState.mk false 0 cTimer false 0 1000 20 2 0 0 none []).pwm_current = 0 ∧
      (SysState.mk false 0 cTimer false 0 1000 20 2 0 0 none []).pwm_target = 1000 ∧
      (SysState.mk false 0 cTimer false 0 1000 20 2 0 0 none []).pwm_step =
        (if (1000 : Int) < 0 then -SPINDLE_RAMP_STEP_INCR else SPINDLE_RAMP_STEP_INCR) ∧
      (SysState.mk false 0 cTimer false 0 1000 20 2 0 0 none []).ms_cfg =
        SPINDLE_RAMP_STEP_TIME) ∧
    ((rampIter cSettings cPWM ((((1000 : Int) - 0).natAbs + 19) / 20)
        (SysState.mk false 0 cTimer false 0 1000 20 2 0 0 none [])).pwm_current = 1000 ∧
      (rampIter cSettings cPWM ((((1000 : Int) - 0).natAbs + 19) / 20)
        (SysState.mk false 0 cTimer false 0 1000 20 2 0 0 none [])).ms_cfg = 0) := by
  constructor
  · refine ⟨by decide, rfl, rfl, by decide, rfl⟩
  · have h := ramp_convergence cSettings cPWM
      (SysState.mk false 0 cTimer false 0 1000 20 2 0 0 none []) 0 1000 rfl rfl
      (by norm_num) (by decide) rfl
    exact ⟨h.1, h.2.2.2.1⟩

/-! ## The delay countdown (C8) -/

set_option maxHeartbeats 1600000 in
lemma rampTick_delay_fields (st : Settings) (cfg : SpindlePWM) (s : SysState) :
    (rampTick st cfg s).delay_ms = s.delay_ms ∧
    (rampTick st cfg s).delay_callback = s.delay_callback ∧
    (rampTick st cfg s).fired = s.fired := by
  cases s
  simp only [rampTick, spindle_off]
  split_ifs <;> simp

lemma systick_ramp_delay_fields (st : Settings) (cfg : SpindlePWM) (s : SysState) :
    (systick_ramp st cfg s).delay_ms = s.delay_ms ∧
    (systick_ramp st cfg s).delay_callback = s.delay_callback ∧
    (systick_ramp st cfg s).fired = s.fired := by
  simp only [systick_ramp]
  split_ifs with h1 h2
  · exact rampTick_delay_fields st cfg s
  · simp
  · simp

lemma systick_tail_delay_fields (s : SysState) :
    (systick_tail s).delay_callback = s.delay_callback ∧
    (systick_tail s).fired = s.fired := by
  simp only [systick_tail]
  split_ifs <;> simp

lemma systick_delay_spec (x : SysState) :
    (systick_delay x).delay_ms = x.delay_ms - 1 ∧
    (systick_delay x).delay_callback = (if x.delay_ms = 1 then none else x.delay_callback) ∧
    (systick_delay x).fired =
      (if x.delay_ms = 1 then
        (match x.delay_callback with
         | some c => x.fired ++ [c]
         | none => x.fired)
       else x.fired) := by
  simp only [systick_delay]
  by_cases h0 : x.delay_ms = 0
  · simp [h0]
  · by_cases h1 : x.delay_ms = 1
    · cases hcb : x.delay_callback <;> simp [h0, h1, hcb]
    · have h2 : ¬(x.delay_ms - 1 = 0) := by omega
      simp [h0, h1, h2]

lemma systick_isr_delay_spec (st : Settings) (cfg : SpindlePWM) (s : SysState) :
    (systick_isr st cfg s).delay_ms = s.delay_ms - 1 ∧
    (systick_isr st cfg s).delay_callback =
      (if s.delay_ms = 1 then none else s.delay_callback) ∧
    (systick_isr st cfg s).fired =
      (if s.delay_ms = 1 then
        (match s.delay_callback with
         | some c => s.fired ++ [c]
         | none => s.fired)
       else s.fired) := by
  obtain ⟨hr1, hr2, hr3⟩ := systick_ramp_delay_fields st cfg s
  obtain ⟨hd1, hd2, hd3⟩ := systick_delay_spec (systick_ramp st cfg s)
  obtain ⟨ht2, ht3⟩ := systick_tail_delay_fields (systick_delay (systick_ramp st cfg s))
  refine ⟨?_, ?_, ?_⟩
  · rw [systick_isr, (systick_tail_fields _).1, hd1, hr1]
  · rw [systick_isr, ht2, hd2, hr1, hr2]
  · rw [systick_isr, ht3, hd3, hr1, hr2, hr3]

lemma systick_iter_idle (st : Settings) (cfg : SpindlePWM) (k : Nat) (s : SysState)
    (h0 : s.delay_ms = 0) (hcb : s.delay_callback = none) :
    ((systick_isr st cfg)^[k] s).delay_ms = 0 ∧
    ((systick_isr st cfg)^[k] s).delay_callback = none ∧
    ((systick_isr st cfg)^[k] s).fired = s.fired := by
  induction k generalizing s with
  | zero => exact ⟨h0, hcb, rfl⟩
  | succ k ih =>
      rw [Function.iterate_succ_apply]
      obtain ⟨h1, h2, h3⟩ := systick_isr_delay_spec st cfg s
      have ih2 := ih (systick_isr st cfg s) (by omega) (by rw [h2]; simp [h0, hcb])
      refine ⟨ih2.1, ih2.2.1, ih2.2.2.trans ?_⟩
      rw [h3]
      simp [h0]

lemma systick_iter_delay (st : Settings) (cfg : SpindlePWM) (k : Nat) (s : SysState)
    (hpos : 0 < s.delay_ms) :
    ((systick_isr st cfg)^[k] s).delay_ms = s.delay_ms - k ∧
    ((systick_isr st cfg)^[k] s).delay_callback =
      (if k < s.delay_ms then s.delay_callback else none) ∧
    ((systick_isr st cfg)^[k] s).fired =
      (if k < s.delay_ms then s.fired
       else
        (match s.delay_callback with
         | some c => s.fired ++ [c]
         | none => s.fired)) := by
  induction k generalizing s with
  | zero => simp [hpos]
  | succ k ih =>
      rw [Function.iterate_succ_apply]
      obtain ⟨h1, h2, h3⟩ := systick_isr_delay_spec st cfg s
      by_cases hone : s.delay_ms = 1
      · have hcb2 : (systick_isr st cfg s).delay_callback = none := by simp [h2, hone]
        obtain ⟨g1, g2, g3⟩ := systick_iter_idle st cfg k (systick_isr st cfg s)
          (by omega) hcb2
        refine ⟨by omega, ?_, ?_⟩
        · rw [g2]
          simp [hone]
        · rw [g3, h3]
          simp [hone]
      · have hge : 2 ≤ s.delay_ms := by omega
        have ih2 := ih (systick_isr st cfg s) (by omega)
        rw [h1] at ih2
        obtain ⟨g1, g2, g3⟩ := ih2
        refine ⟨by omega, ?_, ?_⟩
        · rw [g2, h2]
          by_cases hk : k + 1 < s.delay_ms
          · rw [if_pos (by omega), if_pos hk, if_neg hone]
          · rw [if_neg (by omega), if_neg hk]
        · have hcb2 : (systick_isr st cfg s).delay_callback = s.delay_callback := by
            rw [h2, if_neg hone]
          have hf2 : (systick_isr st cfg s).fired = s.fired := by
            rw [h3, if_neg hone]
          rw [g3, hcb2, hf2]
          by_cases hk : k + 1 < s.delay_ms
          · rw [if_pos (by omega), if_pos hk]
          · rw [if_neg (by omega), if_neg hk]

/-- Claim C8: for delay(ms, callback) with ms > 0 and no pending request
(the data model allows at most one outstanding request): with a null
callback the call enters the busy-wait, which terminates exactly when
the tick countdown reaches zero; with a callback the call returns
immediately and the callback fires exactly once, from the systick
handler, on the tick on which the countdown expires, after which the
stored callback is cleared. -/
theorem delay_callback_once (st : Settings) (cfg : SpindlePWM) (ms : Nat)
    (hms : 0 < ms) (s : SysState) (hpend : s.delay_callback = none) :
    ((driver_delay_ms ms none s).2 = true ∧
     (∀ k < ms, ((systick_isr st cfg)^[k] (driver_delay_ms ms none s).1).delay_ms ≠ 0) ∧
     ((systick_isr st cfg)^[ms] (driver_delay_ms ms none s).1).delay_ms = 0) ∧
    (∀ c : Nat,
      (driver_delay_ms ms (some c) s).2 = false ∧
      (∀ k, ((systick_isr st cfg)^[k] (driver_delay_ms ms (some c) s).1).fired =
        (if k < ms then s.fired else s.fired ++ [c])) ∧
      (∀ k, ((systick_isr st cfg)^[k] (driver_delay_ms ms (some c) s).1).delay_callback =
        (if k < ms then some c else none))) := by
  have harm : ∀ cb : Option Nat, (driver_delay_ms ms cb s).1 =
      { s with delay_ms := ms, sysTickEnabled := true, delay_callback := cb } := by
    intro cb
    simp [driver_delay_ms, hpend, hms.ne']
  constructor
  · refine ⟨by simp [driver_delay_ms, hpend, hms.ne'], ?_, ?_⟩
    · intro k hk
      have h := (systick_iter_delay st cfg k (driver_delay_ms ms none s).1
        (by rw [harm]; exact hms)).1
      rw [harm] at h ⊢
      rw [h]
      simp only
      omega
    · have h := (systick_iter_delay st cfg ms (driver_delay_ms ms none s).1
        (by rw [harm]; exact hms)).1
      rw [harm] at h ⊢
      rw [h]
      simp
  · intro c
    refine ⟨by simp [driver_delay_ms, hpend, hms.ne'], ?_, ?_⟩
    · intro k
      have h := (systick_iter_delay st cfg k (driver_delay_ms ms (some c) s).1
        (by rw [harm]; exact hms)).2.2
      rw [harm] at h ⊢
      rw [h]
    · intro k
      have h := (systick_iter_delay st cfg k (driver_delay_ms ms (some c) s).1
        (by rw [harm]; exact hms)).2.1
      rw [harm] at h ⊢
      rw [h]

/-- Witness for C8: a 2 ms delay with callback 5 from the idle state. -/
theorem delay_callback_once_witness :
    ((0 : Nat) < 2 ∧ cSys.delay_callback = none) ∧
    (driver_delay_ms 2 (some 5) cSys).2 = false ∧
    (∀ k, ((systick_isr cSettings cPWM)^[k] (driver_delay_ms 2 (some 5) cSys).1).fired =
      (if k < 2 then cSys.fired else cSys.fired ++ [5])) := by
  refine ⟨⟨by decide, by decide⟩, ?_, ?_⟩
  · exact ((delay_callback_once cSettings cPWM 2 (by decide) cSys (by decide)).2 5).1
  · exact ((delay_callback_once cSettings cPWM 2 (by decide) cSys (by decide)).2 5).2.1

/-! ## Software debounce of the limit inputs (C3)

The debounce timer is a TivaWare one-shot timer: TimerLoadSet writes the
load register, TimerEnable starts counting from the load value only when
the timer is stopped (setting the already-set enable bit of a running
timer does not restart the count).  Time advances in 1 ms steps; in each
step a pending expiry is delivered first and then any raw edge of that
millisecond is processed by limit_isr_debounced.  raw gives the limit
axes bits read from the port at each millisecond. -/

structure DebState where
  running : Bool
  count : Nat
  load : Nat
  deriving DecidableEq, Repr

/-- limitsGetState: read the limit port bits and apply the configured
invert mask (the pin-to-axis mapping is external; raw is the axes
bitset read from the pins). -/
def limitsGetState (invert raw : Nat) : Nat :=
  if invert ≠ 0 then raw ^^^ invert else raw

/-- software_debounce_isr: re-sample the limit state; notify upstream
only if it is still non-zero. -/
def software_debounce_note (invert raw : Nat) : Option Nat :=
  let state := limitsGetState invert raw
  if state ≠ 0 then some state else none

/-- limit_isr_debounced, limit-edge branch: TimerLoadSet(32 ms) then
TimerEnable; enabling a running one-shot timer does not restart it. -/
def debEdge (s : DebState) : DebState :=
  let s1 : DebState := { s with load := DEBOUNCE_WINDOW_MS }
  if !s1.running then { s1 with running := true, count := s1.load } else s1

/-- One millisecond of the debounce subsystem: deliver an expiry of the
one-shot timer (running software_debounce_isr), then process a raw edge
of this millisecond, if any. -/
def debStep (invert raw : Nat) (edge : Bool) (s : DebState) :
    DebState × Option Nat :=
  let p : DebState × Option Nat :=
    if s.running then
      if s.count - 1 = 0 then
        ({ s with running := false, count := 0 }, software_debounce_note invert raw)
      else ({ s with count := s.count - 1 }, none)
    else (s, none)
  (if edge then debEdge p.1 else p.1, p.2)

/-- Run the debounce subsystem for n milliseconds starting at time t,
collecting the upstream notifications with their timestamps. -/
def debRun (invert : Nat) (raw : Nat → Nat) (edges : Nat → Bool) :
    DebState → Nat → Nat → DebState × List (Nat × Nat)
  | s, _, 0 => (s, [])
  | s, t, n + 1 =>
      let r := debStep invert (raw t) (edges t) s
      let rest := debRun invert raw edges r.1 (t + 1) n
      (rest.1, (match r.2 with | some v => [(t, v)] | none => []) ++ rest.2)

lemma debRun_add (invert : Nat) (raw : Nat → Nat) (edges : Nat → Bool)
    (m n : Nat) : ∀ (s : DebState) (t : Nat),
    debRun invert raw edges s t (m + n) =
      ((debRun invert raw edges (debRun invert raw edges s t m).1 (t + m) n).1,
       (debRun invert raw edges s t m).2 ++
         (debRun invert raw edges (debRun invert raw edges s t m).1 (t + m) n).2) := by
  induction m with
  | zero => intro s t; simp [debRun]
  | succ m ih =>
      intro s t
      have hadd : m + 1 + n = (m + n) + 1 := by omega
      rw [hadd]
      simp only [debRun]
      rw [ih]
      simp only [debRun]
      have ht : t + 1 + m = t + (m + 1) := by omega
      rw [ht, List.append_assoc]

-- While the timer is running with more than k ms to go, k steps leave
-- it running with the count reduced by k, the load register pinned at
-- 32, and no notification, regardless of further edges.
lemma debRun_running (invert : Nat) (raw : Nat → Nat) (edges : Nat → Bool) :
    ∀ (k t : Nat) (s : DebState), s.running = true → s.load = DEBOUNCE_WINDOW_MS →
    k < s.count →
    (debRun invert raw edges s t k).1 = DebState.mk true (s.count - k) DEBOUNCE_WINDOW_MS ∧
    (debRun invert raw edges s t k).2 = [] := by
  intro k
  induction k with
  | zero =>
      intro t s h1 h2 _
      obtain ⟨r, c, l⟩ := s
      simp only at h1 h2
      simp [debRun, h1, h2]
  | succ k ih =>
      intro t s h1 h2 hk
      have hc : ¬(s.count - 1 = 0) := by omega
      have hstep : (debStep invert (raw t) (edges t) s).1 =
          DebState.mk true (s.count - 1) DEBOUNCE_WINDOW_MS ∧
          (debStep invert (raw t) (edges t) s).2 = none := by
        obtain ⟨r, c, l⟩ := s
        simp only at h1 h2 hc
        subst h1 h2
        by_cases he : edges t <;> simp [debStep, debEdge, hc, he]
      have ih2 := ih (t + 1) (debStep invert (raw t) (edges t) s).1
        (by rw [hstep.1]) (by rw [hstep.1]) (by rw [hstep.1]; simp; omega)
      simp only [debRun]
      rw [hstep.2]
      refine ⟨?_, ?_⟩
      · rw [ih2.1, hstep.1]
        simp only
        congr 1
        omega
      · simp [ih2.2]

/-- Claim C3, amended: with software debounce enabled, a burst of raw
limit edges beginning at time t0 (with arbitrary further edges while
the timer runs) produces exactly one upstream notification, timed 32 ms
after the first edge, provided the re-sampled limit state at expiry is
still non-zero (if the input has returned to the idle state by then,
the burst produces no notification: see the counterexample); a second
raw edge while the debounce timer is running is ignored and does not
re-arm the timer, the count keeps falling by exactly 1 per ms. -/
theorem debounce_single_notification (invert : Nat) (raw : Nat → Nat)
    (edges : Nat → Bool) (s : DebState) (t0 : Nat)
    (hidle : s.running = false) (hedge : edges t0 = true)
    (hstate : limitsGetState invert (raw (t0 + 32)) ≠ 0) :
    (debRun invert raw edges s t0 33).2 =
      [(t0 + 32, limitsGetState invert (raw (t0 + 32)))] ∧
    (∀ k, 1 ≤ k → k ≤ 32 →
      (debRun invert raw edges s t0 k).1.running = true ∧
      (debRun invert raw edges s t0 k).1.count = 33 - k) := by
  have hs1 : (debRun invert raw edges s t0 1).1 =
      DebState.mk true 32 DEBOUNCE_WINDOW_MS ∧
      (debRun invert raw edges s t0 1).2 = [] := by
    obtain ⟨r, c, l⟩ := s
    simp only at hidle
    subst hidle
    simp [debRun, debStep, debEdge, hedge, DEBOUNCE_WINDOW_MS]
  have hmid : ∀ j, j ≤ 31 →
      (debRun invert raw edges (debRun invert raw edges s t0 1).1 (t0 + 1) j).1 =
        DebState.mk true (32 - j) DEBOUNCE_WINDOW_MS ∧
      (debRun invert raw edges (debRun invert raw edges s t0 1).1 (t0 + 1) j).2 = [] := by
    intro j hj
    rw [hs1.1]
    have h := debRun_running invert raw edges j (t0 + 1)
      (DebState.mk true 32 DEBOUNCE_WINDOW_MS) rfl rfl (by simpa using by omega)
    simpa using h
  constructor
  · have h33 : (33 : Nat) = 1 + 32 := by norm_num
    rw [h33, debRun_add]
    have h32 : (32 : Nat) = 31 + 1 := by norm_num
    rw [h32, debRun_add]
    obtain ⟨hm1, hm2⟩ := hmid 31 (by norm_num)
    rw [hs1.2, hm1, hm2]
    have htime : t0 + 1 + 31 = t0 + 32 := by omega
    rw [htime]
    simp only [debRun, debStep, software_debounce_note]
    simp [hstate]
  · intro k hk1 hk2
    obtain ⟨j, hj⟩ : ∃ j, k = 1 + j := ⟨k - 1, by omega⟩
    subst hj
    rw [debRun_add]
    obtain ⟨hm1, _⟩ := hmid j (by omega)
    rw [hm1]
    constructor
    · rfl
    · simp only
      omega

/-- Counterexample to C3 as stated: a raw edge at t = 0 whose switch
has bounced back to the idle state by expiry produces zero upstream
notifications, not exactly one. -/
theorem debounce_counterexample :
    (fun t => t == 0 : Nat → Bool) 0 = true ∧
    (DebState.mk false 0 32).running = false ∧
    (debRun 0 (fun _ => 0) (fun t => t == 0) (DebState.mk false 0 32) 0 33).2 = [] := by
  refine ⟨rfl, rfl, ?_⟩
  decide

/-- Witness for C3: a sustained trigger with extra bounce edges 5 ms and
7 ms after the first produces exactly one notification at t0 + 32. -/
theorem debounce_single_notification_witness :
    ((DebState.mk false 0 32).running = false ∧
      (fun t => t == 5 || t == 10 || t == 12 : Nat → Bool) 5 = true ∧
      limitsGetState 0 ((fun _ => 1 : Nat → Nat) (5 + 32)) ≠ 0) ∧
    (debRun 0 (fun _ => 1) (fun t => t == 5 || t == 10 || t == 12)
        (DebState.mk false 0 32) 5 33).2 = [(5 + 32, limitsGetState 0 1)] := by
  refine ⟨⟨rfl, rfl, by decide⟩, ?_⟩
  exact (debounce_single_notification 0 (fun _ => 1)
    (fun t => t == 5 || t == 10 || t == 12) (DebState.mk false 0 32) 5 rfl rfl
    (by decide)).1

/-! ## Probe state (C6) -/

structure ProbeState where
  probeState : Bool
  probe_invert : Nat
  deriving DecidableEq, Repr

/-- probeGetState: reads the probe pin from the hardware port and
applies the invert mask; the commented-out cached return (return
probeState) is not the compiled code.  pin is the GPIOPinRead result. -/
def probeGetState (pin : Nat) (s : ProbeState) : Bool :=
  (pin ^^^ s.probe_invert) != 0

/-- The probe branch of limit_isr / limit_isr_debounced: on a probe
edge interrupt the cache is set to probe_invert != 0. -/
def limit_isr_probe (s : ProbeState) : ProbeState :=
  { s with probeState := s.probe_invert != 0 }

/-- Counterexample to C6 as stated: with probe_invert = 0 (rising edge
configured) and cached probeState = false, probeGetState with the pin
high returns true, not the cached false, and returns different results
for different pin reads under the same cached state, so it re-reads the
hardware pin; moreover the value cached by the edge interrupt is
probe_invert != 0 = false, not the after-invert logical state (true) at
a rising edge. -/
theorem probe_cached_counterexample :
    (ProbeState.mk false 0).probeState = false ∧
    probeGetState 1 (ProbeState.mk false 0) = true ∧
    probeGetState 0 (ProbeState.mk false 0) = false ∧
    (limit_isr_probe (ProbeState.mk false 0)).probeState = false ∧
    probeGetState 1 (limit_isr_probe (ProbeState.mk false 0)) = true := by
  decide

/-- Claim C6, amended: probeGetState re-reads the hardware probe pin
and returns (pin XOR probe_invert) != 0; its result is independent of
the cached probeState, which the probe edge interrupt sets to
probe_invert != 0 but which no reader consults. -/
theorem probe_reads_hardware (pin : Nat) (s : ProbeState) (b : Bool) :
    probeGetState pin { s with probeState := b } = probeGetState pin s ∧
    (probeGetState pin s = true ↔ (pin ^^^ s.probe_invert) ≠ 0) ∧
    (limit_isr_probe s).probeState = (s.probe_invert != 0) ∧
    (limit_isr_probe s).probe_invert = s.probe_invert := by
  refine ⟨rfl, ?_, rfl, rfl⟩
  simp [probeGetState]

/-! ## Atomic helpers (C10)

uint_fast16_t is 32 bits wide on this target; values are Nats below
2^32 and complement is taken at that width.  The functions return the
new stored value in the first component; bitsClearAtomic and
valueSetAtomic return the previous value of *ptr in the second. -/

def not_u32 (b : Nat) : Nat := (2 ^ 32 - 1) ^^^ b

/-- bitsSetAtomic: *ptr |= bits (under masked interrupts). -/
def bitsSetAtomic (ptr bits : Nat) : Nat := ptr ||| bits

/-- bitsClearAtomic: *ptr &= ~bits, returning the previous value. -/
def bitsClearAtomic (ptr bits : Nat) : Nat × Nat := (ptr &&& not_u32 bits, ptr)

/-- valueSetAtomic: *ptr = value, returning the previous value. -/
def valueSetAtomic (ptr v : Nat) : Nat × Nat := (v, ptr)

/-- Claim C10: the atomic helpers are exact read-modify-write
primitives: bitsSetAtomic sets exactly the mask bits and leaves every
other bit unchanged; bitsClearAtomic clears exactly the mask bits,
leaves the others unchanged and returns the previous value;
valueSetAtomic stores the value and returns the previous one. -/
theorem atomic_rmw_exact (ptr bits v i : Nat) (hi : i < 32) :
    ((bitsSetAtomic ptr bits).testBit i = (ptr.testBit i || bits.testBit i)) ∧
    (bits.testBit i = false → (bitsSetAtomic ptr bits).testBit i = ptr.testBit i) ∧
    (bits.testBit i = true → ((bitsClearAtomic ptr bits).1).testBit i = false) ∧
    (bits.testBit i = false → ((bitsClearAtomic ptr bits).1).testBit i = ptr.testBit i) ∧
    (bitsClearAtomic ptr bits).2 = ptr ∧
    (valueSetAtomic ptr v).1 = v ∧
    (valueSetAtomic ptr v).2 = ptr := by
  have hmask : Nat.testBit 4294967295 i = true := by
    rw [show (4294967295 : Nat) = 2 ^ 32 - 1 by norm_num, Nat.testBit_two_pow_sub_one]
    simp [hi]
  refine ⟨?_, ?_, ?_, ?_, rfl, rfl, rfl⟩
  · simp [bitsSetAtomic, Nat.testBit_or]
  · intro hb
    simp [bitsSetAtomic, Nat.testBit_or, hb]
  · intro hb
    simp [bitsClearAtomic, not_u32, Nat.testBit_and, Nat.testBit_xor, hmask, hb]
  · intro hb
    simp [bitsClearAtomic, not_u32, Nat.testBit_and, Nat.testBit_xor, hmask, hb]

/-- Witness for C10: ptr = 0b1010, bits = 0b0110, checking a mask bit
and a non-mask bit. -/
theorem atomic_rmw_exact_witness :
    ((1 : Nat) < 32 ∧ (6 : Nat).testBit 1 = true ∧
      ((bitsClearAtomic 10 6).1).testBit 1 = false) ∧
    ((3 : Nat) < 32 ∧ (6 : Nat).testBit 3 = false ∧
      ((bitsClearAtomic 10 6).1).testBit 3 = (10 : Nat).testBit 3) := by
  constructor
  · exact ⟨by decide, by decide,
      (atomic_rmw_exact 10 6 0 1 (by decide)).2.2.1 (by decide)⟩
  · exact ⟨by decide, by decide,
      (atomic_rmw_exact 10 6 0 3 (by decide)).2.2.2.1 (by decide)⟩

end Driver
